import Mathlib

/-!
# Verification of the TodoAI closed-loop controller

A shallow embedding, in Lean 4, of the perception-decision-action controller
of the TodoAI repository:

* `src/action_executor/action_executor.py` — rate limiter and the five action
  handlers (`enforce_rate_limit`, `execute_action`, `handle_click`,
  `handle_doubleclick`, `handle_type`, `handle_scroll`, `handle_hotkey`);
* `src/step_handler/step_handler.py` — the inner step loop
  (`StepHandler.execute_task`) and response cleaning (`clean_response`);
* `src/todo_ai/agent.py` — the outer task loop (`TodoAIAgent.execute_task`,
  `execute_step`, `parse_response`).

External collaborators (the Gemini query, the element locator, the OS input
layer, wall-clock time) are modelled as explicit oracle parameters; the
keystrokes and scrolls the code would issue are collected as event lists,
the blocking sleeps as returned wait durations, and raised Python exceptions
as `Except` error values.

Python strings are modelled as Lean `String`s, with the string operations the
code uses (`str.strip`, `str.lstrip`, `str.split`, slicing, `find`/`rfind`)
implemented over `List Char` to mirror Python semantics.
-/

namespace TodoAI

/-! ## Python string primitives -/

/-- The characters Python `str.strip()` (with no argument) removes. -/
def isPyWS (c : Char) : Bool :=
  c = ' ' || c = '\t' || c = '\n' || c = '\r' || c = '\x0b' || c = '\x0c'

/-- Python `s.strip()` on a character list: drop whitespace from both ends. -/
def pyStripList (cs : List Char) : List Char :=
  ((cs.dropWhile isPyWS).reverse.dropWhile isPyWS).reverse

/-- Python `s.strip()`. -/
def pyStrip (s : String) : String := ⟨pyStripList s.toList⟩

/-- Python `s.lstrip(' ')`: drop leading space characters only. -/
def lstripSpacesList (cs : List Char) : List Char := cs.dropWhile (· = ' ')

/-- Python `text.split('\n')` on a character list: split at every newline,
keeping empty pieces (`''.split('\n') == ['']`). -/
def splitOnNL : List Char → List (List Char)
  | [] => [[]]
  | '\n' :: rest => [] :: splitOnNL rest
  | c :: rest =>
    match splitOnNL rest with
    | [] => [[c]]
    | l :: ls => (c :: l) :: ls

/-! ## Keystroke / actuation events

Each call the code makes into `pyautogui` (or would make) is recorded as one
event. -/

/-- One actuation performed through the external input layer. -/
inductive ActEvent
  | click (x y : Int)
  | doubleClick (x y : Int)
  | pressKey (k : String)
  | typewrite (s : String)
  | hotkey (ks : List String)
  | vscroll (n : Int)
  | hscroll (n : Int)
  deriving DecidableEq, Repr

/-! ## `handle_type`: splitting text into keystrokes

From `handle_type` (action_executor.py lines 198-224):

    lines = [line.strip() for line in text.split('\n') if line.strip()]
    for i, line in enumerate(lines):
        if i > 0:
            pyautogui.press('enter'); time.sleep(0.1)
        leading_spaces = len(line) - len(line.lstrip(' '))
        tab_count = leading_spaces // 4
        for _ in range(tab_count):
            pyautogui.press('tab'); time.sleep(0.1)
        pyautogui.typewrite(line.lstrip(' ')); time.sleep(0.1)
-/

/-- The line list `[line.strip() for line in text.split('\n') if line.strip()]`
(mapping `strip` then filtering non-empty is equivalent because `strip` is
idempotent). -/
def splitLines (text : String) : List (List Char) :=
  ((splitOnNL text.toList).map pyStripList).filter (· ≠ [])

/-- `len(line) - len(line.lstrip(' '))` — the number of leading spaces. -/
def leadingSpaces (line : List Char) : Nat :=
  line.length - (lstripSpacesList line).length

/-- The keystrokes the loop body issues for one line, the leading Enter of
lines after the first excluded: `tab_count` tab presses, then the line typed
with leading spaces removed. -/
def typeLineEvents (line : List Char) : List ActEvent :=
  List.replicate (leadingSpaces line / 4) (ActEvent.pressKey "tab")
    ++ [ActEvent.typewrite ⟨lstripSpacesList line⟩]

/-- The `for i, line in enumerate(lines)` loop: an Enter before every line
with index `i > 0`, then that line's keystrokes. -/
def typeLoop : Nat → List (List Char) → List ActEvent
  | _, [] => []
  | i, line :: rest =>
    (if i > 0 then [ActEvent.pressKey "enter"] else [])
      ++ typeLineEvents line ++ typeLoop (i + 1) rest

/-- All keystrokes issued by the body of `handle_type` for a given `text`. -/
def handle_type_events (text : String) : List ActEvent :=
  typeLoop 0 (splitLines text)

end TodoAI

namespace TodoAI

/-! ## Basic lemmas about the typing pipeline -/

theorem dropWhile_head_false {p : Char → Bool} {cs : List Char} {c : Char}
    {t : List Char} (h : cs.dropWhile p = c :: t) : p c = false := by
  induction cs with
  | nil => simp at h
  | cons a as ih =>
    by_cases hp : p a
    · rw [List.dropWhile_cons_of_pos hp] at h
      exact ih h
    · rw [List.dropWhile_cons_of_neg hp] at h
      cases h
      simpa using hp

theorem dropWhile_append_last_false {p : Char → Bool} (ys : List Char)
    {d : Char} (hd : p d = false) :
    (ys ++ [d]).dropWhile p = ys.dropWhile p ++ [d] := by
  induction ys with
  | nil => simp [List.dropWhile_cons_of_neg (by simpa using hd)]
  | cons a as ih =>
    by_cases hp : p a
    · simp [List.dropWhile_cons_of_pos hp, ih]
    · simp [List.dropWhile_cons_of_neg hp]

/-- A non-empty stripped line starts with a non-whitespace character. -/
theorem pyStripList_head_not_ws {cs : List Char} {c : Char} {t : List Char}
    (h : pyStripList cs = c :: t) : isPyWS c = false := by
  unfold pyStripList at h
  set ds := cs.dropWhile isPyWS with hds
  cases hd : ds with
  | nil => rw [hd] at h; simp at h
  | cons d rest =>
    have hdws : isPyWS d = false := dropWhile_head_false hd
    rw [hd] at h
    have : (rest.reverse ++ [d]).dropWhile isPyWS
        = rest.reverse.dropWhile isPyWS ++ [d] :=
      dropWhile_append_last_false _ hdws
    simp only [List.reverse_cons, this, List.reverse_append] at h
    simp at h
    obtain ⟨h1, _⟩ := h
    rw [← h1]; exact hdws

/-- Every line produced by `splitLines` has no leading spaces: the `strip`
in the list comprehension already removed them. -/
theorem splitLines_no_leading_spaces {text : String} {l : List Char}
    (hl : l ∈ splitLines text) : lstripSpacesList l = l := by
  unfold splitLines at hl
  rw [List.mem_filter] at hl
  obtain ⟨hmem, hne⟩ := hl
  rw [List.mem_map] at hmem
  obtain ⟨raw, _, hraw⟩ := hmem
  cases hcase : l with
  | nil => rfl
  | cons c t =>
    have hhead : isPyWS c = false := by
      apply @pyStripList_head_not_ws raw c t
      rw [hraw, hcase]
    have hcs : c ≠ ' ' := by
      intro hc
      rw [hc] at hhead
      simp [isPyWS] at hhead
    unfold lstripSpacesList
    rw [List.dropWhile_cons_of_neg (by simpa using hcs)]

theorem splitLines_leadingSpaces_zero {text : String} {l : List Char}
    (hl : l ∈ splitLines text) : leadingSpaces l = 0 := by
  unfold leadingSpaces lstripSpacesList
  rw [show l.dropWhile (· = ' ') = lstripSpacesList l from rfl,
    splitLines_no_leading_spaces hl]
  omega

/-- Number of tab keystrokes in an event list. -/
def tabCount (es : List ActEvent) : Nat :=
  es.countP (· = ActEvent.pressKey "tab")

theorem typeLoop_tabCount {lines : List (List Char)}
    (h : ∀ l ∈ lines, leadingSpaces l = 0) (i : Nat) :
    tabCount (typeLoop i lines) = 0 := by
  induction lines generalizing i with
  | nil => simp [typeLoop, tabCount]
  | cons l rest ih =>
    have hl : leadingSpaces l = 0 := h l (by simp)
    have hrest : ∀ l' ∈ rest, leadingSpaces l' = 0 := by
      intro l' hl'; exact h l' (by simp [hl'])
    simp only [typeLoop, tabCount, List.countP_append]
    have h3 : List.countP (fun x => decide (x = ActEvent.pressKey "tab"))
        (typeLoop (i + 1) rest) = 0 := ih hrest (i + 1)
    rw [h3]
    simp [typeLineEvents, hl, List.countP_cons]

/-- `handle_type` never issues a tab keystroke: counting leading spaces after
the line was already stripped always yields zero. -/
theorem handle_type_no_tabs (text : String) :
    tabCount (handle_type_events text) = 0 := by
  unfold handle_type_events
  exact typeLoop_tabCount (fun l hl => splitLines_leadingSpaces_zero hl) 0

/-! ## Python exceptions

Each Python exception class the core can raise, carrying `str(e)`. -/

inductive PyError
  | valueError (msg : String)
  | runtimeError (msg : String)
  | typeError (msg : String)
  | attributeError (msg : String)
  deriving DecidableEq, Repr

/-- `str(e)` of a raised exception. -/
def PyError.msg : PyError → String
  | .valueError m => m
  | .runtimeError m => m
  | .typeError m => m
  | .attributeError m => m

/-! ## The rate limiter (`enforce_rate_limit`, action_executor.py lines 30-59)

`request_timestamps` is a module-global FIFO `queue.Queue` bounded at
`MAX_REQUESTS_PER_MINUTE`; it is modelled as a `List ℚ` of timestamps, oldest
first, threaded explicitly.  `datetime.now()` becomes the explicit `now`
argument and `time.sleep(wait_time)` becomes the returned wait duration. -/

def MAX_REQUESTS_PER_MINUTE : Nat := 15

/-- One acquisition: returns the time slept and the updated queue. -/
def enforce_rate_limit (now : ℚ) (st : List ℚ) : ℚ × List ℚ :=
  if st.length < MAX_REQUESTS_PER_MINUTE then
    (0, st ++ [now])
  else
    match st with
    | [] => (0, [now])
    | oldest :: rest =>
      let diff := now - oldest
      if diff < 60 then (60 - diff, rest ++ [now])
      else (0, rest ++ [now])

/-- A sequence of acquisitions at the given times, starting from queue `st`:
returns the per-acquisition wait times and the final queue. -/
def runLimiter : List ℚ → List ℚ → List ℚ × List ℚ
  | st, [] => ([], st)
  | st, t :: ts =>
    let (w, st') := enforce_rate_limit t st
    let (ws, stf) := runLimiter st' ts
    (w :: ws, stf)

/-! ## JSON values and `json.loads`

`json.loads` is the standard-library parser; it is modelled for the JSON
fragment the controller exchanges: `null`, booleans, integer numbers
(floats are not modelled — no controller path produces or consumes one),
strings with the common escapes (`\uXXXX` is not modelled), arrays and
objects.  Python dicts keep the last of duplicate keys, so object lookup
takes the last binding. -/

inductive Json
  | null
  | bool (b : Bool)
  | num (n : Int)
  | str (s : String)
  | arr (xs : List Json)
  | obj (kvs : List (String × Json))

/-- `dict.get(k)` on a parsed object: last binding wins, as in a Python dict
built by `json.loads`. -/
def pyGet (kvs : List (String × Json)) (k : String) : Option Json :=
  (kvs.reverse.find? (fun p => p.1 = k)).map (fun p => p.2)

/-- Python truthiness of a JSON-decoded value. -/
def Json.isTruthy : Json → Bool
  | .null => false
  | .bool b => b
  | .num n => n ≠ 0
  | .str s => s ≠ ""
  | .arr xs => !xs.isEmpty
  | .obj kvs => !kvs.isEmpty

/-- Rendering used where the code interpolates a decoded value into an
f-string.  Only the `str` and `num` cases are ever inspected by a theorem;
container rendering is abbreviated. -/
def Json.pyStr : Json → String
  | .null => "None"
  | .bool b => if b then "True" else "False"
  | .num n => toString n
  | .str s => s
  | .arr _ => "[...]"
  | .obj _ => "\x7b...\x7d"

/-- JSON whitespace accepted between tokens. -/
def jsonWSb (c : Char) : Bool := c = ' ' || c = '\t' || c = '\n' || c = '\r'

def skipWS (cs : List Char) : List Char := cs.dropWhile jsonWSb

/-- The character denoted by a backslash escape in a JSON string. -/
def escChar (c : Char) : Option Char :=
  if c = '"' then some '"'
  else if c = '\\' then some '\\'
  else if c = '/' then some '/'
  else if c = 'n' then some '\n'
  else if c = 't' then some '\t'
  else if c = 'r' then some '\r'
  else if c = 'b' then some '\x08'
  else if c = 'f' then some '\x0c'
  else none

/-- Parse the body of a JSON string after the opening quote. -/
def parseStr : Nat → List Char → Option (List Char × List Char)
  | _, '"' :: rest => some ([], rest)
  | fuel + 1, '\\' :: e :: rest => do
    let c ← escChar e
    let (s, r) ← parseStr fuel rest
    pure (c :: s, r)
  | fuel + 1, c :: rest =>
    if c = '\\' then none
    else do
      let (s, r) ← parseStr fuel rest
      pure (c :: s, r)
  | _, _ => none

/-- Digits of a non-negative integer literal, most significant first. -/
def natFromDigits (ds : List Char) : Nat :=
  ds.foldl (fun n c => 10 * n + (c.toNat - 48)) 0

/-- Parse an integer JSON number. -/
def parseNum : List Char → Option (Int × List Char)
  | '-' :: rest =>
    let ds := rest.takeWhile Char.isDigit
    if ds = [] then none
    else some (-(natFromDigits ds : Int), rest.dropWhile Char.isDigit)
  | cs =>
    let ds := cs.takeWhile Char.isDigit
    if ds = [] then none
    else some ((natFromDigits ds : Int), cs.dropWhile Char.isDigit)

mutual

/-- Parse one JSON value, leading whitespace allowed. -/
def parseVal : Nat → List Char → Option (Json × List Char)
  | 0, _ => none
  | fuel + 1, cs =>
    match skipWS cs with
    | 'n' :: 'u' :: 'l' :: 'l' :: r => some (.null, r)
    | 't' :: 'r' :: 'u' :: 'e' :: r => some (.bool true, r)
    | 'f' :: 'a' :: 'l' :: 's' :: 'e' :: r => some (.bool false, r)
    | '"' :: r => (parseStr fuel r).map (fun p => (.str ⟨p.1⟩, p.2))
    | '\x7b' :: r =>
      (match skipWS r with
       | '\x7d' :: r2 => some (.obj [], r2)
       | r2 => parseMembers fuel r2 [])
    | '[' :: r =>
      (match skipWS r with
       | ']' :: r2 => some (.arr [], r2)
       | r2 => parseItems fuel r2 [])
    | r => (parseNum r).map (fun p => (.num p.1, p.2))

/-- Parse the members of an object after `{`, first key next. -/
def parseMembers : Nat → List Char → List (String × Json) →
    Option (Json × List Char)
  | 0, _, _ => none
  | fuel + 1, cs, acc =>
    match skipWS cs with
    | '"' :: r =>
      (match parseStr fuel r with
       | none => none
       | some (k, r1) =>
         match skipWS r1 with
         | ':' :: r2 =>
           (match parseVal fuel r2 with
            | none => none
            | some (v, r3) =>
              match skipWS r3 with
              | ',' :: r4 => parseMembers fuel r4 (acc ++ [(⟨k⟩, v)])
              | '\x7d' :: r4 => some (.obj (acc ++ [(⟨k⟩, v)]), r4)
              | _ => none)
         | _ => none)
    | _ => none

/-- Parse the items of an array after `[`, first item next. -/
def parseItems : Nat → List Char → List Json → Option (Json × List Char)
  | 0, _, _ => none
  | fuel + 1, cs, acc =>
    match parseVal fuel cs with
    | none => none
    | some (v, r) =>
      match skipWS r with
      | ',' :: r2 => parseItems fuel r2 (acc ++ [v])
      | ']' :: r2 => some (.arr (acc ++ [v]), r2)
      | _ => none

end

/-- `json.loads`: parse one value and require only whitespace after it. -/
def json_loads (s : String) : Option Json :=
  let cs := s.toList
  match parseVal (cs.length + 1) cs with
  | some (v, rest) => if skipWS rest = [] then some v else none
  | none => none

/-! ## The action handlers (`action_executor.py`)

The element locator `find_element_coordinates` is an external collaborator:
it is passed in as `locate`, returning coordinates or a failure description.
Every handler returns the list of actuations it performed, or the Python
exception it raised (an error value carries no actuations: the code raises
before or instead of acting). -/

/-- `dict.get(k)` seen from Python: a JSON `null` value decodes to `None`,
indistinguishable from an absent key by an `is None` test. -/
def pyGetNotNone (kvs : List (String × Json)) (k : String) : Option Json :=
  match pyGet kvs k with
  | some .null => none
  | v => v

/-- The `target` branch shared by `handle_click`/`handle_doubleclick`: a
truthy target is resolved through the locator; locator failures are
re-raised as `RuntimeError` naming the target. -/
def clickByTarget (locate : String → Except String (Int × Int))
    (action : String) (target : Json) : Except PyError (List ActEvent) :=
  if target.isTruthy then
    match target with
    | .str t =>
      (match locate t with
       | .ok p => .ok [.click p.1 p.2]
       | .error m =>
         .error (.runtimeError
           s!"Error during {action} action on \x27{t}\x27: {m}"))
    | _ =>
      .error (.runtimeError
        s!"Error during {action} action on target: not a string")
  else
    .error (.valueError
      s!"Missing target description or x,y coordinates for {action} action")

/-- `handle_click` (lines 96-134).  `x`/`y` both present (and not JSON
`null`) take priority; otherwise a truthy `target` is resolved through the
locator; otherwise a `ValueError`. -/
def handle_click (locate : String → Except String (Int × Int))
    (params : Json) : Except PyError (List ActEvent) :=
  match params with
  | .obj kvs =>
    (match pyGetNotNone kvs "x", pyGetNotNone kvs "y" with
     | some (.num xi), some (.num yi) => .ok [.click xi yi]
     | some _, some _ =>
       .error (.runtimeError "Error during click action: invalid coordinates")
     | _, _ => clickByTarget locate "click" ((pyGet kvs "target").getD .null))
  | _ => .error (.attributeError "parameters object has no attribute get")

/-- `handle_doubleclick` (lines 136-174), identical in structure to
`handle_click` but issuing a double click. -/
def handle_doubleclick (locate : String → Except String (Int × Int))
    (params : Json) : Except PyError (List ActEvent) :=
  match params with
  | .obj kvs =>
    (match pyGetNotNone kvs "x", pyGetNotNone kvs "y" with
     | some (.num xi), some (.num yi) => .ok [.doubleClick xi yi]
     | some _, some _ =>
       .error
         (.runtimeError "Error during doubleclick action: invalid coordinates")
     | _, _ =>
       match clickByTarget locate "doubleclick"
           ((pyGet kvs "target").getD .null) with
       | .ok [.click x y] => .ok [.doubleClick x y]
       | r => r)
  | _ => .error (.attributeError "parameters object has no attribute get")

/-- `handle_type` (lines 176-226).  `enforce_rate_limit()` runs before the
`text` lookup, so the limiter queue is updated (and the caller possibly
blocked) even when the command is invalid.  Returns the result, the time
slept by the limiter, and the updated limiter queue. -/
def handle_type (now : ℚ) (st : List ℚ) (params : Json) :
    Except PyError (List ActEvent) × ℚ × List ℚ :=
  let ws := enforce_rate_limit now st
  match params with
  | .obj kvs =>
    (match pyGet kvs "text" with
     | none => (.error (.valueError "Missing text for type action"), ws)
     | some .null => (.error (.valueError "Missing text for type action"), ws)
     | some (.str text) => (.ok (handle_type_events text), ws)
     | some _ =>
       (.error (.runtimeError "Error during type action: text is not a string"),
        ws))
  | _ => (.error (.attributeError "parameters object has no attribute get"), ws)

/-- Scroll amounts: Python passes JSON numbers (and bools, which are ints)
straight to `pyautogui.scroll`. -/
def scrollAmount : Json → Option Int
  | .num n => some n
  | .bool b => some (if b then 1 else 0)
  | _ => none

/-- `handle_scroll` (lines 228-264).  `amount` defaults to 5 when absent;
a missing or `null` direction and a direction outside the four cardinal
values are `ValueError`s raised before any actuation. -/
def handle_scroll (params : Json) : Except PyError (List ActEvent) :=
  match params with
  | .obj kvs =>
    let amount := (pyGet kvs "amount").getD (.num 5)
    match pyGet kvs "direction" with
    | none => .error (.valueError "Missing direction for scroll action")
    | some .null => .error (.valueError "Missing direction for scroll action")
    | some (.str d) =>
      if d = "up" ∨ d = "down" ∨ d = "left" ∨ d = "right" then
        match scrollAmount amount with
        | none =>
          .error (.runtimeError "Error during scroll action: bad amount")
        | some a =>
          if d = "up" then .ok [.vscroll a]
          else if d = "down" then .ok [.vscroll (-a)]
          else if d = "left" then .ok [.hscroll (-a)]
          else .ok [.hscroll a]
      else
        .error (.valueError
          "Invalid scroll direction. Must be \x27up\x27, \x27down\x27, \x27left\x27, or \x27right\x27")
    | some _ =>
      -- a non-string direction is never in the list of the four strings
      .error (.valueError
        "Invalid scroll direction. Must be \x27up\x27, \x27down\x27, \x27left\x27, or \x27right\x27")
  | _ => .error (.attributeError "parameters object has no attribute get")

/-- `handle_hotkey` (lines 266-290): `keys` must be a truthy list; the keys
are pressed as one chord. -/
def handle_hotkey (params : Json) : Except PyError (List ActEvent) :=
  match params with
  | .obj kvs =>
    (match (pyGet kvs "keys").getD .null with
     | .arr [] => .error (.valueError "Missing or invalid keys for hotkey action")
     | .arr xs =>
       if xs.all (fun j => match j with | .str _ => true | _ => false) then
         .ok [.hotkey (xs.map Json.pyStr)]
       else
         .error (.runtimeError "Error during hotkey action: bad key")
     | _ => .error (.valueError "Missing or invalid keys for hotkey action"))
  | _ => .error (.attributeError "parameters object has no attribute get")

/-- `execute_action` (lines 61-94): validate `action_type` and `parameters`
(Python truthiness), then dispatch on the action tag; unknown tags are a
`ValueError`.  Returns the result, the limiter wait, and the limiter queue
(only `type` touches the limiter). -/
def execute_action (locate : String → Except String (Int × Int))
    (now : ℚ) (st : List ℚ) (action_data : Json) :
    Except PyError (List ActEvent) × ℚ × List ℚ :=
  match action_data with
  | .obj kvs =>
    let aty := (pyGet kvs "action_type").getD .null
    if ¬ aty.isTruthy then
      (.error (.valueError "Missing \x27action_type\x27 in action data"), 0, st)
    else
      let params := (pyGet kvs "parameters").getD (.obj [])
      if ¬ params.isTruthy then
        (.error (.valueError "Missing \x27parameters\x27 in action data"), 0, st)
      else
        match aty with
        | .str t =>
          if t = "click" then (handle_click locate params, 0, st)
          else if t = "doubleclick" then (handle_doubleclick locate params, 0, st)
          else if t = "type" then handle_type now st params
          else if t = "scroll" then (handle_scroll params, 0, st)
          else if t = "hotkey" then (handle_hotkey params, 0, st)
          else (.error (.valueError s!"Unknown action type: {t}"), 0, st)
        | _ =>
          (.error (.valueError s!"Unknown action type: {aty.pyStr}"), 0, st)
  | _ =>
    (.error (.attributeError "action data object has no attribute get"), 0, st)

/-! ## Observation helpers for the typing pipeline -/

/-- "One Enter keystroke before every element except the first": the shape
the spec ascribes to the typed output. -/
def enterSeparated : List (List ActEvent) → List ActEvent
  | [] => []
  | es :: rest =>
    es ++ (rest.map (fun e => ActEvent.pressKey "enter" :: e)).flatten

/-- The texts actually typed, in order. -/
def typedLines (es : List ActEvent) : List String :=
  es.filterMap (fun e => match e with | .typewrite s => some s | _ => none)

/-! ## Response cleaning and parsing

`clean_response` is textually identical in `step_handler.py` (lines 171-192)
and `agent.py` (lines 149-171); it is modelled once.
`re.sub(r'```(?:json)?', '', response)` removes every occurrence of three
backticks, greedily taking a following `json`. -/

/-- The fence-marker removal pass of `clean_response`: scanning left to
right, an occurrence of three backticks — greedily extended by `json` — is
deleted, every other character kept. -/
def removeFences : List Char → List Char
  | '`' :: '`' :: '`' :: 'j' :: 's' :: 'o' :: 'n' :: rest => removeFences rest
  | '`' :: '`' :: '`' :: rest => removeFences rest
  | c :: rest => c :: removeFences rest
  | [] => []

/-- The brace-slicing pass of `clean_response`: `start = find('{')`,
`end = rfind('}')` (an index from the right of the reversed list), and the
slice `response[start:end+1]` when both exist, else the text unchanged. -/
def extractJson (cs : List Char) : List Char :=
  match cs.findIdx? (· = '\x7b'), cs.reverse.findIdx? (· = '\x7d') with
  | some s, some rback =>
    let e := cs.length - 1 - rback
    (cs.take (e + 1)).drop s
  | _, _ => cs

/-- `clean_response`: strip fences, then slice from the first `{` to the
last `}` when both exist, else return the fence-stripped text. -/
def clean_response (response : String) : String :=
  ⟨extractJson (removeFences response.toList)⟩

/-- `TodoAIAgent.parse_response` (agent.py lines 128-147): clean, then
`json.loads`; a decode failure is re-raised as `ValueError` carrying the
cleaned text. -/
def parse_response (response : String) : Except PyError Json :=
  let cleaned := clean_response response
  match json_loads cleaned with
  | some j => .ok j
  | none => .error (.valueError s!"Error parsing Gemini response: {cleaned}")

/-! ## Python `in` and subscription on decoded values -/

/-- `k in j` for a decoded value: key membership for dicts, substring for
strings, element membership for lists, `TypeError` otherwise. -/
def keyIn (k : String) (j : Json) : Except PyError Bool :=
  match j with
  | .obj kvs => .ok (kvs.any (fun p => p.1 = k))
  | .str s => .ok (decide (1 < (s.splitOn k).length))
  | .arr xs =>
    .ok (xs.any (fun x => match x with | .str t => t = k | _ => false))
  | _ => .error (.typeError "argument of type \x27int\x27 is not iterable")

/-- `j[k]` for a decoded value with a string key: dict lookup (last binding
wins), `TypeError` for every non-dict. -/
def getItem (j : Json) (k : String) : Except PyError Json :=
  match j with
  | .obj kvs =>
    (match pyGet kvs k with
     | some v => .ok v
     | none => .error (.typeError s!"KeyError: {k}"))
  | _ => .error (.typeError "value is not subscriptable")

/-! ## The step loop (`StepHandler.execute_task`, step_handler.py 109-169)

The Gemini query and the wall clock are oracle functions of the attempt
index; the screenshots feed only the (external) decision source, so they do
not appear in the model.  `time.sleep(delay_between_attempts)` has no
observable effect in the model.  The two dedicated exception classes
`MaxAttemptsExceeded` and `GeminiResponseError` and the uncaught Python
exceptions from `execute_action` are the three distinct error shapes a step
run can produce. -/

inductive StepError
  | maxAttemptsExceeded (msg : String)
  | geminiResponseError (msg : String)
  | pyErr (e : PyError)

/-- `str(e)` of a step-level exception. -/
def StepError.msg : StepError → String
  | .maxAttemptsExceeded m => m
  | .geminiResponseError m => m
  | .pyErr e => e.msg

/-- Oracles for one `StepHandler` run: the raw model response and the
`datetime.now()` reading for each attempt index, and the element locator. -/
structure StepEnv where
  responses : Nat → String
  times : Nat → ℚ
  locate : String → Except String (Int × Int)

/-- The verdict test of the loop body:
`if "result" in result:` then `result["result"] == "success"` /
`== "problem"`.  Returns whether the loop must return `result`, or the
Python exception the test itself raises. -/
def stepVerdictCheck (result : Json) : Except PyError Bool :=
  match keyIn "result" result with
  | .error e => .error e
  | .ok false => .ok false
  | .ok true =>
    match getItem result "result" with
    | .error e => .error e
    | .ok (.str s) => .ok (s == "success" || s == "problem")
    | .ok _ => .ok false

/-- The `while attempt < self.max_attempts` loop, by recursion on the
remaining attempts (`rem = max_attempts - attempt`).  Returns the verdict or
error, the final `step_history`, and the final rate-limiter queue. -/
def stepLoop (env : StepEnv) (maxAttempts : Nat) :
    Nat → Nat → List Json → List ℚ →
    Except StepError Json × List Json × List ℚ
  | 0, _, hist, st =>
    (.error (.maxAttemptsExceeded
      s!"Exceeded maximum number of attempts ({maxAttempts}) without success or clear action"),
     hist, st)
  | rem + 1, attempt, hist, st =>
    match json_loads (clean_response (env.responses attempt)) with
    | none =>
      (.error (.geminiResponseError
        s!"Invalid response format from model: {env.responses attempt}"),
       hist, st)
    | some result =>
      match stepVerdictCheck result with
      | .error e => (.error (.pyErr e), hist, st)
      | .ok true => (.ok result, hist, st)
      | .ok false =>
        let hist' := hist ++ [result]
        match execute_action env.locate (env.times attempt) st result with
        | (.error e, _, st') => (.error (.pyErr e), hist', st')
        | (.ok _, _, st') => stepLoop env maxAttempts rem (attempt + 1) hist' st'

/-- `StepHandler.execute_task`: run the loop from attempt 0 with empty
history, threading the global limiter queue `st`. -/
def StepHandler_execute_task (env : StepEnv) (maxAttempts : Nat)
    (st : List ℚ) : Except StepError Json × List Json × List ℚ :=
  stepLoop env maxAttempts maxAttempts 0 [] st

/-- The `StepHandler` constructor validation (step_handler.py lines 50-51). -/
def StepHandler_init (max_attempts : Nat) : Except PyError Unit :=
  if max_attempts < 1 then .error (.valueError "max_attempts must be at least 1")
  else .ok ()

/-! ## The task loop (`TodoAIAgent`, agent.py)

`execute_step` (lines 90-126) spawns a fresh `StepHandler` with the default
`max_attempts = 10` and catches every exception from its run, folding it
into a `{status, message}` record; `execute_task` (lines 173-227) appends a
`{description, result: message}` entry to `step_history` after each
`next_step` and continues. -/

/-- The `{status, message}` dict `execute_step` returns. -/
structure StepResult where
  status : String
  message : Json

/-- `result.get("description", dflt)` inside `execute_step`.  The non-dict
case models the `AttributeError` Python would raise being caught by the
surrounding `except Exception`; it is unreachable for the results the step
loop can actually return. -/
def stepRecordOf (status : String) (dflt : String) (result : Json) :
    StepResult :=
  match result with
  | .obj kvs => ⟨status, (pyGet kvs "description").getD (.str dflt)⟩
  | _ =>
    ⟨"error",
     .str "Error during step execution: \x27str\x27 object has no attribute \x27get\x27"⟩

/-- `TodoAIAgent.execute_step`: run a fresh step handler (default
`max_attempts = 10`); `"result" in result and result["result"] == "success"`
selects the success record, anything else the failure record, and any
exception (including one raised by the membership test itself) the error
record. -/
def execute_step (senv : StepEnv) (st : List ℚ) : StepResult × List ℚ :=
  let r := StepHandler_execute_task senv 10 st
  let st' := r.2.2
  let res : StepResult :=
    match r.1 with
    | .error e =>
      ⟨"error", .str s!"Error during step execution: {e.msg}"⟩
    | .ok result =>
      match keyIn "result" result with
      | .error e => ⟨"error", .str s!"Error during step execution: {e.msg}"⟩
      | .ok false => stepRecordOf "failure" "Step failed" result
      | .ok true =>
        match getItem result "result" with
        | .error e => ⟨"error", .str s!"Error during step execution: {e.msg}"⟩
        | .ok (.str s) =>
          if s == "success" then
            stepRecordOf "success" "Step completed successfully" result
          else stepRecordOf "failure" "Step failed" result
        | .ok _ => stepRecordOf "failure" "Step failed" result
  (res, st')

/-- Oracles for one `TodoAIAgent` run: the raw model response for each
iteration, and the oracles of the `StepHandler` spawned at each iteration. -/
structure TaskEnv where
  responses : Nat → String
  stepEnvs : Nat → StepEnv

/-- `result.get("message", "")` interpolated into the terminal message. -/
def taskMsg (result : Json) : String :=
  match result with
  | .obj kvs => ((pyGet kvs "message").getD (.str "")).pyStr
  | _ => ""

/-- `result.get("description", "Unknown step")` of a `next_step` response. -/
def taskDesc (result : Json) : Json :=
  match result with
  | .obj kvs => (pyGet kvs "description").getD (.str "Unknown step")
  | _ => .str "Unknown step"

/-- The `while iteration < self.max_iterations` loop of
`TodoAIAgent.execute_task`, by recursion on the remaining iterations.
History entries are `(description, result message)` pairs.  An unrecognized
`status` value falls through every `elif` and the loop just continues; a
missing `status` key raises `ValueError`; exhaustion raises the literal
(un-formatted) `ValueError` of line 227. -/
def taskLoop (env : TaskEnv) (maxIterations : Nat) :
    Nat → Nat → List (Json × Json) → List ℚ →
    Except PyError String × List (Json × Json) × List ℚ
  | 0, _, hist, st =>
    (.error (.valueError
      "Task timed out after \x7bself.max_iterations\x7d iterations"),
     hist, st)
  | rem + 1, iteration, hist, st =>
    match parse_response (env.responses iteration) with
    | .error e => (.error e, hist, st)
    | .ok result =>
      match keyIn "status" result with
      | .error e => (.error e, hist, st)
      | .ok false =>
        (.error (.valueError s!"Invalid response from Gemini: {result.pyStr}"),
         hist, st)
      | .ok true =>
        match getItem result "status" with
        | .error e => (.error e, hist, st)
        | .ok v =>
          match v with
          | .str s =>
            if s == "success" then
              (.ok s!"Task completed successfully: {taskMsg result}", hist, st)
            else if s == "failure" then
              (.ok s!"Task failed: {taskMsg result}", hist, st)
            else if s == "next_step" then
              let sr := execute_step (env.stepEnvs iteration) st
              let hist' := hist ++ [(taskDesc result, sr.1.message)]
              taskLoop env maxIterations rem (iteration + 1) hist' sr.2
            else taskLoop env maxIterations rem (iteration + 1) hist st
          | _ => taskLoop env maxIterations rem (iteration + 1) hist st

/-- `TodoAIAgent.execute_task`: run the loop from iteration 0 with empty
history, threading the global limiter queue `st`. -/
def TodoAIAgent_execute_task (env : TaskEnv) (maxIterations : Nat)
    (st : List ℚ) : Except PyError String × List (Json × Json) × List ℚ :=
  taskLoop env maxIterations maxIterations 0 [] st

/-! ## Structure lemmas for `handle_type` -/

theorem typeLoop_pos (lines : List (List Char)) :
    ∀ i, 0 < i →
      typeLoop i lines
        = (lines.map (fun l => ActEvent.pressKey "enter" :: typeLineEvents l)).flatten := by
  induction lines with
  | nil => intro i _; simp [typeLoop]
  | cons l ls ih =>
    intro i hi
    simp only [typeLoop, List.map_cons, List.flatten_cons]
    rw [if_pos hi, ih (i + 1) (by omega)]
    simp

/-- The enumerate loop of `handle_type` produces exactly the per-line event
blocks separated by single Enter presses. -/
theorem handle_type_events_eq_enterSeparated (text : String) :
    handle_type_events text
      = enterSeparated ((splitLines text).map typeLineEvents) := by
  unfold handle_type_events
  cases h : splitLines text with
  | nil => simp [typeLoop, enterSeparated]
  | cons l ls =>
    simp only [typeLoop, List.map_cons, enterSeparated]
    rw [if_neg (by omega), typeLoop_pos ls 1 (by omega), List.map_map]
    rfl

theorem typedLines_typeLoop (lines : List (List Char)) :
    ∀ i, typedLines (typeLoop i lines)
      = lines.map (fun l => (⟨lstripSpacesList l⟩ : String)) := by
  induction lines with
  | nil => intro i; simp [typeLoop, typedLines]
  | cons l ls ih =>
    intro i
    simp only [typeLoop, typedLines, List.filterMap_append, List.map_cons]
    have h1 : List.filterMap
        (fun e => match e with | ActEvent.typewrite s => some s | _ => none)
        (if i > 0 then [ActEvent.pressKey "enter"] else []) = [] := by
      split <;> simp
    have h2 : List.filterMap
        (fun e => match e with | ActEvent.typewrite s => some s | _ => none)
        (typeLineEvents l) = [(⟨lstripSpacesList l⟩ : String)] := by
      simp [typeLineEvents, List.filterMap_append]
    rw [h1, h2]
    simpa [typedLines] using ih (i + 1)

/-- The texts typed by `handle_type` are exactly the stripped non-blank
lines of the input. -/
theorem typedLines_handle_type (text : String) :
    typedLines (handle_type_events text)
      = (splitLines text).map (fun l => (⟨lstripSpacesList l⟩ : String)) :=
  typedLines_typeLoop (splitLines text) 0

/-! ## Claim theorems -/

/-- C1: the claim states that a line with `k` leading spaces produces
exactly `k // 4` tab presses.  The code contradicts it (and its own inline
comments): `line.strip()` in the split comprehension removes the leading
spaces before they are counted, so `leading_spaces` is always `0` and no
tab keystroke is ever issued.  In particular the text `"        x"`
(8 leading spaces), for which the claim requires 2 tab presses, is typed
with zero tab presses. -/
theorem C1_indentation_tabs_never_issued :
    (∀ text : String, tabCount (handle_type_events text) = 0) ∧
    handle_type_events "        x" = [ActEvent.typewrite "x"] ∧
    tabCount (handle_type_events "        x") = 0 :=
  ⟨handle_type_no_tabs, by rfl, by rfl⟩

/-- C6: the text of a Type command is split on newlines into
whitespace-trimmed lines, blank lines are dropped with no keystroke, and
one Enter is issued before every typed line except the first (none before
the first): the event stream is exactly the per-line blocks separated by
single Enters, the typed texts are exactly the stripped non-blank lines,
and `"a\n\n  b"` yields typed lines `"a"` then `"b"` with a single Enter
between them. -/
theorem C6_type_line_splitting :
    (∀ text : String,
      handle_type_events text
          = enterSeparated ((splitLines text).map typeLineEvents) ∧
        typedLines (handle_type_events text)
          = (splitLines text).map (fun l => (⟨lstripSpacesList l⟩ : String))) ∧
    splitLines "a\n\n  b" = [['a'], ['b']] ∧
    handle_type_events "a\n\n  b"
      = [ActEvent.typewrite "a", ActEvent.pressKey "enter",
         ActEvent.typewrite "b"] :=
  ⟨fun text => ⟨handle_type_events_eq_enterSeparated text,
    typedLines_handle_type text⟩, by rfl, by rfl⟩

/-- C7: scroll direction `up` performs a vertical scroll of `+amount`,
`down` of `-amount`, `right` a horizontal scroll of `+amount`, `left` of
`-amount`; any direction outside the four cardinal values fails with the
validation `ValueError` and performs no actuation (the error carries an
empty event list by construction). -/
theorem C7_scroll_direction_signs :
    (∀ a : Int,
      handle_scroll (.obj [("direction", .str "up"), ("amount", .num a)])
          = .ok [.vscroll a] ∧
      handle_scroll (.obj [("direction", .str "down"), ("amount", .num a)])
          = .ok [.vscroll (-a)] ∧
      handle_scroll (.obj [("direction", .str "right"), ("amount", .num a)])
          = .ok [.hscroll a] ∧
      handle_scroll (.obj [("direction", .str "left"), ("amount", .num a)])
          = .ok [.hscroll (-a)]) ∧
    (∀ (d : String) (amt : Json),
      d ∉ (["up", "down", "left", "right"] : List String) →
      handle_scroll (.obj [("direction", .str d), ("amount", amt)])
        = .error (.valueError
            "Invalid scroll direction. Must be \x27up\x27, \x27down\x27, \x27left\x27, or \x27right\x27")) := by
  constructor
  · intro a
    refine ⟨rfl, rfl, rfl, rfl⟩
  · intro d amt hd
    simp only [List.mem_cons, List.not_mem_nil, or_false, not_or] at hd
    obtain ⟨h1, h2, h3, h4⟩ := hd
    simp [handle_scroll, pyGet, h1, h2, h3, h4]

/-- C7 witness: direction `"sideways"` with amount 3 is rejected with the
validation error, and the positive cases at amount 3. -/
theorem C7_scroll_direction_signs_witness :
    handle_scroll (.obj [("direction", .str "up"), ("amount", .num 3)])
        = .ok [.vscroll 3] ∧
    ("sideways" ∉ (["up", "down", "left", "right"] : List String)) ∧
    handle_scroll (.obj [("direction", .str "sideways"), ("amount", .num 3)])
      = .error (.valueError
          "Invalid scroll direction. Must be \x27up\x27, \x27down\x27, \x27left\x27, or \x27right\x27") :=
  ⟨(C7_scroll_direction_signs.1 3).1, by decide,
    C7_scroll_direction_signs.2 "sideways" (.num 3) (by decide)⟩

/-- C10: a scroll command with a valid direction and no `amount` key scrolls
with the default magnitude 5, signed by the direction, instead of failing
with a missing-parameter error. -/
theorem C10_scroll_default_amount (kvs : List (String × Json))
    (hamt : pyGet kvs "amount" = none) :
    (pyGet kvs "direction" = some (.str "up") →
      handle_scroll (.obj kvs) = .ok [.vscroll 5]) ∧
    (pyGet kvs "direction" = some (.str "down") →
      handle_scroll (.obj kvs) = .ok [.vscroll (-5)]) ∧
    (pyGet kvs "direction" = some (.str "left") →
      handle_scroll (.obj kvs) = .ok [.hscroll (-5)]) ∧
    (pyGet kvs "direction" = some (.str "right") →
      handle_scroll (.obj kvs) = .ok [.hscroll 5]) := by
  refine ⟨?_, ?_, ?_, ?_⟩ <;> intro hdir <;>
    simp [handle_scroll, hamt, hdir, scrollAmount]

/-- C10 witness: `{"direction": "up"}` with no amount key scrolls by +5. -/
theorem C10_scroll_default_amount_witness :
    pyGet [("direction", Json.str "up")] "amount" = none ∧
    pyGet [("direction", Json.str "up")] "direction" = some (.str "up") ∧
    handle_scroll (.obj [("direction", Json.str "up")]) = .ok [.vscroll 5] :=
  ⟨rfl, rfl, (C10_scroll_default_amount [("direction", Json.str "up")] rfl).1 rfl⟩

/-- A limiter acquisition always records the caller's timestamp. -/
theorem mem_enforce_rate_limit (now : ℚ) (st : List ℚ) :
    now ∈ (enforce_rate_limit now st).2 := by
  unfold enforce_rate_limit
  split
  · simp
  · split
    · simp
    · dsimp only
      split <;> simp

/-- C9: a `type` command with a non-empty parameters mapping that lacks the
`text` key still runs `enforce_rate_limit` first: the call fails with the
missing-text `ValueError`, yet the limiter wait and queue are exactly those
of a successful acquisition, and the caller's timestamp is recorded. -/
theorem C9_invalid_type_consumes_rate_limit_slot
    (locate : String → Except String (Int × Int))
    (kvs : List (String × Json)) (now : ℚ) (st : List ℚ)
    (hne : kvs ≠ []) (hmiss : pyGet kvs "text" = none) :
    execute_action locate now st
        (.obj [("action_type", .str "type"), ("parameters", .obj kvs)])
      = (.error (.valueError "Missing text for type action"),
         enforce_rate_limit now st) ∧
    now ∈ (enforce_rate_limit now st).2 := by
  refine ⟨?_, mem_enforce_rate_limit now st⟩
  simp [execute_action, handle_type, pyGet, Json.isTruthy, hne]
  rw [show Option.map (fun p => p.2)
      (List.find? (fun p => decide (p.1 = "text")) kvs.reverse) = none
    from hmiss]

/-- C9 witness at `{"action_type": "type", "parameters": {"foo": "bar"}}`,
time 0, empty queue. -/
theorem C9_invalid_type_consumes_rate_limit_slot_witness :
    ([("foo", Json.str "bar")] : List (String × Json)) ≠ [] ∧
    pyGet [("foo", Json.str "bar")] "text" = none ∧
    (execute_action (fun _ => .error "") 0 []
        (.obj [("action_type", .str "type"),
               ("parameters", .obj [("foo", Json.str "bar")])])
      = (.error (.valueError "Missing text for type action"),
         enforce_rate_limit 0 []) ∧
     (0 : ℚ) ∈ (enforce_rate_limit 0 []).2) :=
  ⟨by simp, rfl,
    C9_invalid_type_consumes_rate_limit_slot (fun _ => .error "")
      [("foo", Json.str "bar")] 0 [] (by simp) rfl⟩

/-- Appending one acquisition to a run extends the wait list by that
acquisition's wait, applied to the run's final queue. -/
theorem runLimiter_snoc (ts : List ℚ) : ∀ (st : List ℚ) (t : ℚ),
    runLimiter st (ts ++ [t])
      = ((runLimiter st ts).1
           ++ [(enforce_rate_limit t (runLimiter st ts).2).1],
         (enforce_rate_limit t (runLimiter st ts).2).2) := by
  induction ts with
  | nil => intro st t; simp [runLimiter]
  | cons s ts ih =>
    intro st t
    simp only [List.cons_append, runLimiter, List.append_eq]
    rw [ih]

/-- While the queue is below capacity, every acquisition returns with zero
wait and just appends its timestamp. -/
theorem runLimiter_under_capacity (ts : List ℚ) : ∀ st : List ℚ,
    st.length + ts.length ≤ MAX_REQUESTS_PER_MINUTE →
    runLimiter st ts = (List.replicate ts.length 0, st ++ ts) := by
  induction ts with
  | nil => intro st _; simp [runLimiter]
  | cons t ts ih =>
    intro st h
    simp only [List.length_cons, MAX_REQUESTS_PER_MINUTE] at h
    have hlt : st.length < MAX_REQUESTS_PER_MINUTE := by
      simp only [MAX_REQUESTS_PER_MINUTE]; omega
    have he : enforce_rate_limit t st = (0, st ++ [t]) := by
      unfold enforce_rate_limit; rw [if_pos hlt]
    simp only [runLimiter, he]
    rw [ih (st ++ [t]) (by
      simp only [List.length_append, List.length_cons, List.length_nil,
        MAX_REQUESTS_PER_MINUTE]
      omega)]
    simp [List.replicate_succ]

/-! ## The step-level Verdict predicate -/

/-- A decoded response the step loop treats as a terminal Verdict: an object
whose `result` key holds `"success"` or `"problem"`. -/
def isVerdict (j : Json) : Bool :=
  match j with
  | .obj kvs =>
    (match pyGet kvs "result" with
     | some (.str s) => s == "success" || s == "problem"
     | _ => false)
  | _ => false

theorem pyGet_eq_none_iff {kvs : List (String × Json)} {k : String} :
    pyGet kvs k = none ↔ kvs.any (fun p => p.1 = k) = false := by
  unfold pyGet
  rw [Option.map_eq_none', List.find?_eq_none]
  constructor
  · intro hf
    rw [List.any_eq_false]
    intro x hx
    simpa using hf x (List.mem_reverse.mpr hx)
  · intro ha x hx
    rw [List.any_eq_false] at ha
    simpa using ha x (List.mem_reverse.mp hx)

/-- A verdict passes the loop's verdict test positively. -/
theorem stepVerdictCheck_of_isVerdict {j : Json} (h : isVerdict j = true) :
    stepVerdictCheck j = .ok true := by
  cases j with
  | obj kvs =>
    cases hp : pyGet kvs "result" with
    | none => simp [isVerdict, hp] at h
    | some v =>
      have hany : kvs.any (fun p => p.1 = "result") = true := by
        cases hc : kvs.any (fun p => p.1 = "result") with
        | false => rw [pyGet_eq_none_iff.mpr hc] at hp; cases hp
        | true => rfl
      cases v with
      | str s =>
        simp only [isVerdict, hp] at h
        simp [stepVerdictCheck, keyIn, getItem, hany, hp, h]
      | null => simp [isVerdict, hp] at h
      | bool b => simp [isVerdict, hp] at h
      | num n => simp [isVerdict, hp] at h
      | arr xs => simp [isVerdict, hp] at h
      | obj o => simp [isVerdict, hp] at h
  | null => simp [isVerdict] at h
  | bool b => simp [isVerdict] at h
  | num n => simp [isVerdict] at h
  | str s => simp [isVerdict] at h
  | arr xs => simp [isVerdict] at h

/-- A response the test lets fall through to execution is not a verdict. -/
theorem isVerdict_false_of_check_false {j : Json}
    (h : stepVerdictCheck j = .ok false) : isVerdict j = false := by
  cases hv : isVerdict j with
  | false => rfl
  | true => rw [stepVerdictCheck_of_isVerdict hv] at h; cases h

/-- The step history only ever accumulates non-verdict entries. -/
theorem stepLoop_history_no_verdict (env : StepEnv) (maxA : Nat) :
    ∀ (rem attempt : Nat) (hist : List Json) (st : List ℚ),
      (∀ j ∈ hist, isVerdict j = false) →
      ∀ j ∈ (stepLoop env maxA rem attempt hist st).2.1,
        isVerdict j = false := by
  intro rem
  induction rem with
  | zero =>
    intro attempt hist st hh j hj
    exact hh j (by simpa [stepLoop] using hj)
  | succ rem ih =>
    intro attempt hist st hh j hj
    simp only [stepLoop] at hj
    cases hp : json_loads (clean_response (env.responses attempt)) with
    | none => simp only [hp] at hj; exact hh j hj
    | some result =>
      simp only [hp] at hj
      cases hc : stepVerdictCheck result with
      | error e => simp only [hc] at hj; exact hh j hj
      | ok b =>
        cases b with
        | true => simp only [hc] at hj; exact hh j hj
        | false =>
          simp only [hc] at hj
          have hres : isVerdict result = false :=
            isVerdict_false_of_check_false hc
          have hh' : ∀ x ∈ hist ++ [result], isVerdict x = false := by
            intro x hx
            rcases List.mem_append.mp hx with h1 | h2
            · exact hh x h1
            · simp only [List.mem_singleton] at h2; subst h2; exact hres
          rcases hea : execute_action env.locate (env.times attempt) st result
            with ⟨r, w, st'⟩
          cases r with
          | error e => simp only [hea] at hj; exact hh' j hj
          | ok evs =>
            simp only [hea] at hj
            exact ih (attempt + 1) (hist ++ [result]) st' hh' j hj

/-- Starting from an empty queue, the first 15 acquisitions return with
zero wait whatever their timestamps; a 16th acquisition whose timestamp is
less than 60 seconds after the 1st waits a strictly positive
`60 - (t16 - t1)`, so the caller resumes exactly 60 seconds after the 1st
timestamp was recorded.  This is the spec's 15-then-16 test scenario; it
does not extend to a rolling-window bound, see the overload schedule
below. -/
theorem runLimiter_first_window_scenario
    (t1 t2 t3 t4 t5 t6 t7 t8 t9 t10 t11 t12 t13 t14 t15 t16 : ℚ)
    (h : t16 - t1 < 60) :
    (runLimiter []
        [t1, t2, t3, t4, t5, t6, t7, t8, t9, t10, t11, t12, t13, t14, t15]).1
      = List.replicate 15 0 ∧
    (runLimiter []
        [t1, t2, t3, t4, t5, t6, t7, t8, t9, t10, t11, t12, t13, t14, t15,
         t16]).1
      = List.replicate 15 0 ++ [60 - (t16 - t1)] ∧
    0 < 60 - (t16 - t1) ∧
    t16 + (60 - (t16 - t1)) = t1 + 60 := by
  have h1 : runLimiter []
      [t1, t2, t3, t4, t5, t6, t7, t8, t9, t10, t11, t12, t13, t14, t15]
      = (List.replicate 15 0,
         [t1, t2, t3, t4, t5, t6, t7, t8, t9, t10, t11, t12, t13, t14,
          t15]) := by
    rw [runLimiter_under_capacity _ _ (by
      simp [MAX_REQUESTS_PER_MINUTE])]
    simp
  refine ⟨by rw [h1], ?_, by linarith, by ring⟩
  · have hsplit : ([t1, t2, t3, t4, t5, t6, t7, t8, t9, t10, t11, t12, t13,
        t14, t15, t16] : List ℚ)
        = [t1, t2, t3, t4, t5, t6, t7, t8, t9, t10, t11, t12, t13, t14, t15]
          ++ [t16] := rfl
    rw [hsplit, runLimiter_snoc, h1]
    have h2 : enforce_rate_limit t16
        [t1, t2, t3, t4, t5, t6, t7, t8, t9, t10, t11, t12, t13, t14, t15]
        = (60 - (t16 - t1),
           [t2, t3, t4, t5, t6, t7, t8, t9, t10, t11, t12, t13, t14, t15,
            t16]) := by
      unfold enforce_rate_limit
      rw [if_neg (by norm_num [MAX_REQUESTS_PER_MINUTE])]
      dsimp only
      rw [if_pos h]
      simp
    rw [h2]

/-! ### The rolling-window guarantee fails: an overload schedule

`enforce_rate_limit` sleeps for the remaining time but then records
`current_time` — the entry time captured *before* the sleep (lines 41 and
59) — so a blocked caller leaves a stale timestamp in the queue.  On the
single-threaded schedule below, acquisition 16 enters at t = 1, sleeps to
t = 60 but stamps `1`; acquisitions 17-30 then enter at t = 60 and pass
against the old zero stamps, and acquisition 31 waits only until t = 61:
sixteen text-entry operations complete inside one trailing 60-second
interval, contradicting the function's own docstring ("ensure no more than
MAX_REQUESTS_PER_MINUTE requests in a rolling window of 60 seconds"). -/

/-- Entry times of 31 acquisitions: 15 at t = 0, one at t = 1, 15 at
t = 60.  Conjunct 3 of the theorem below checks the schedule is
single-threaded consistent: every entry is at or after the previous
acquisition's completion. -/
def overloadSchedule : List ℚ :=
  [0, 0, 0, 0, 0, 0, 0, 0, 0, 0, 0, 0, 0, 0, 0,
   1, 60, 60, 60, 60, 60, 60, 60, 60, 60, 60, 60, 60, 60, 60, 60]

/-- The sleep each acquisition of the overload schedule incurs. -/
def acquisitionWaits : List ℚ := (runLimiter [] overloadSchedule).1

/-- When each acquisition of the overload schedule completes (entry time
plus sleep): the moment the limiter permits the text-entry operation. -/
def completionTimes : List ℚ :=
  List.zipWith (· + ·) overloadSchedule acquisitionWaits

set_option maxHeartbeats 2000000 in
/-- C4: the claimed rolling-window bound — at most 15 text-entry operations
permitted in any trailing 60-second interval — fails on the code, because
after sleeping the code records the pre-sleep entry time.  On the overload
schedule: the first 15 acquisitions do not block, the 16th blocks 59 s
(resuming 60 s after the 1st timestamp, the claim's second clause), the
schedule is single-threaded consistent (every completion is at or before
the next entry), yet sixteen acquisitions complete inside the trailing
60-second interval `[1, 61]`. -/
theorem C4_sixteen_ops_in_one_window :
    acquisitionWaits
      = [0, 0, 0, 0, 0, 0, 0, 0, 0, 0, 0, 0, 0, 0, 0,
         59, 0, 0, 0, 0, 0, 0, 0, 0, 0, 0, 0, 0, 0, 0, 1] ∧
    completionTimes
      = [0, 0, 0, 0, 0, 0, 0, 0, 0, 0, 0, 0, 0, 0, 0,
         60, 60, 60, 60, 60, 60, 60, 60, 60, 60, 60, 60, 60, 60, 60, 61] ∧
    (completionTimes.zipWith (fun c t => decide (c ≤ t))
        (overloadSchedule.drop 1)).all (fun b => b) = true ∧
    (completionTimes.filter (fun c => decide (1 ≤ c ∧ c ≤ 61))).length
      = 16 ∧
    (61 : ℚ) - 1 = 60 := by
  have hw : acquisitionWaits
      = [0, 0, 0, 0, 0, 0, 0, 0, 0, 0, 0, 0, 0, 0, 0,
         59, 0, 0, 0, 0, 0, 0, 0, 0, 0, 0, 0, 0, 0, 0, 1] := by
    norm_num [acquisitionWaits, overloadSchedule, runLimiter,
      enforce_rate_limit, MAX_REQUESTS_PER_MINUTE]
  have hct : completionTimes
      = [0, 0, 0, 0, 0, 0, 0, 0, 0, 0, 0, 0, 0, 0, 0,
         60, 60, 60, 60, 60, 60, 60, 60, 60, 60, 60, 60, 60, 60, 60,
         61] := by
    unfold completionTimes
    rw [hw]
    norm_num [overloadSchedule]
  refine ⟨hw, hct, ?_, ?_, by norm_num⟩
  · rw [hct]; rfl
  · rw [hct]; rfl

/-- C5: a parsed response that is a terminal Verdict (a `result` key with
value `success` or `problem`) makes the loop return it on that same
iteration with the history unchanged — the verdict is never appended — and
consequently every entry of a step run's final history is a non-verdict
action command. -/
theorem C5_verdict_terminates_loop_unrecorded :
    (∀ (env : StepEnv) (maxA rem attempt : Nat) (hist : List Json)
       (st : List ℚ) (result : Json),
       json_loads (clean_response (env.responses attempt)) = some result →
       isVerdict result = true →
       stepLoop env maxA (rem + 1) attempt hist st
         = (.ok result, hist, st)) ∧
    (∀ (env : StepEnv) (maxA : Nat) (st : List ℚ),
       ∀ j ∈ (StepHandler_execute_task env maxA st).2.1,
         isVerdict j = false) := by
  constructor
  · intro env maxA rem attempt hist st result hp hv
    simp only [stepLoop, hp, stepVerdictCheck_of_isVerdict hv]
  · intro env maxA st j hj
    exact stepLoop_history_no_verdict env maxA maxA 0 [] st
      (by intro x hx; cases hx) j hj

/-- A sample step-oracle: the first response is a scroll action, every
later one a success verdict. -/
def stepEnvA : StepEnv where
  responses := fun n =>
    if n = 0 then
      "\x7b\"action_type\": \"scroll\", \"parameters\": \x7b\"direction\": \"up\"\x7d\x7d"
    else "\x7b\"result\": \"success\", \"description\": \"done\"\x7d"
  times := fun _ => 0
  locate := fun _ => .error "element not found"

/-- The decoded scroll action of `stepEnvA`. -/
def actionA : Json :=
  .obj [("action_type", .str "scroll"),
        ("parameters", .obj [("direction", .str "up")])]

/-- The decoded success verdict of `stepEnvA`. -/
def verdictA : Json :=
  .obj [("result", .str "success"), ("description", .str "done")]

/-- C5 witness: on `stepEnvA` the verdict response at attempt 1 ends the
loop with the one-action history unchanged, and the only entry of the full
run's history is the non-verdict scroll action. -/
theorem C5_verdict_terminates_loop_unrecorded_witness :
    (json_loads (clean_response (stepEnvA.responses 1)) = some verdictA ∧
     isVerdict verdictA = true ∧
     stepLoop stepEnvA 2 1 1 [actionA] [0]
       = (.ok verdictA, [actionA], [0])) ∧
    ((StepHandler_execute_task stepEnvA 2 []).2.1 = [actionA] ∧
     isVerdict actionA = false) :=
  ⟨⟨by rfl, by rfl,
    C5_verdict_terminates_loop_unrecorded.1 stepEnvA 2 0 1 [actionA] [0]
      verdictA (by rfl) (by rfl)⟩,
   ⟨by rfl,
    C5_verdict_terminates_loop_unrecorded.2 stepEnvA 2 [] actionA (by
      rw [show (StepHandler_execute_task stepEnvA 2 []).2.1 = [actionA]
        by rfl]
      exact List.mem_singleton.mpr rfl)⟩⟩

/-- A step-oracle that always answers with a problem verdict. -/
def stepEnvB : StepEnv where
  responses := fun _ => "\x7b\"result\": \"problem\", \"description\": \"bad\"\x7d"
  times := fun _ => 0
  locate := fun _ => .error "element not found"

/-- A step-oracle that always answers with a scroll action: the loop never
sees a verdict and exhausts its attempts. -/
def stepEnvC : StepEnv where
  responses := fun _ =>
    "\x7b\"action_type\": \"scroll\", \"parameters\": \x7b\"direction\": \"up\"\x7d\x7d"
  times := fun _ => 0
  locate := fun _ => .error "element not found"

/-- A task-oracle that always proposes a next step, whose spawned step run
ends in a problem verdict. -/
def taskEnvB : TaskEnv where
  responses := fun _ =>
    "\x7b\"status\": \"next_step\", \"description\": \"do it\", \"expected_outcome\": \"done\"\x7d"
  stepEnvs := fun _ => stepEnvB

/-- C3 counterexample: the TaskController's exhaustion failure is a plain
`ValueError` — the same exception type `parse_response` raises for a
malformed response — and its message contains the literal, un-formatted
`{self.max_iterations}` placeholder rather than the configured limit, so it
is neither dedicated nor distinguishable by type. -/
theorem C3_task_timeout_not_dedicated :
    (TodoAIAgent_execute_task taskEnvB 1 []).1
      = .error (.valueError
          "Task timed out after \x7bself.max_iterations\x7d iterations") ∧
    parse_response "no braces at all"
      = .error (.valueError
          "Error parsing Gemini response: no braces at all") :=
  ⟨by rfl, by rfl⟩

/-- C3 (amended): the StepController raises the dedicated
`MaxAttemptsExceeded` error naming the configured limit after
`max_attempts` non-terminal iterations, and that error is distinguishable
by type from malformed-response and execution errors; the TaskController,
however, fails with a generic `ValueError` (with an un-formatted message)
after `max_iterations` iterations of non-terminal decisions. -/
theorem C3_exhaustion_errors :
    (∀ (env : StepEnv) (maxA : Nat),
      (∀ k : Nat, ∃ result : Json,
        json_loads (clean_response (env.responses k)) = some result ∧
        stepVerdictCheck result = .ok false ∧
        ∀ st' : List ℚ, ∃ evs,
          (execute_action env.locate (env.times k) st' result).1 = .ok evs) →
      ∀ (rem attempt : Nat) (hist : List Json) (st : List ℚ),
        (stepLoop env maxA rem attempt hist st).1
          = .error (.maxAttemptsExceeded
              s!"Exceeded maximum number of attempts ({maxA}) without success or clear action")) ∧
    (∀ (env : TaskEnv) (maxI : Nat),
      (∀ k : Nat, ∃ result : Json,
        parse_response (env.responses k) = .ok result ∧
        keyIn "status" result = .ok true ∧
        getItem result "status" = .ok (.str "next_step")) →
      ∀ (rem iteration : Nat) (hist : List (Json × Json)) (st : List ℚ),
        (taskLoop env maxI rem iteration hist st).1
          = .error (.valueError
              "Task timed out after \x7bself.max_iterations\x7d iterations")) ∧
    (∀ m m', StepError.maxAttemptsExceeded m ≠ .geminiResponseError m') ∧
    (∀ m e, StepError.maxAttemptsExceeded m ≠ .pyErr e) := by
  refine ⟨?_, ?_, ?_, ?_⟩
  case refine_3 => intro m m' h; cases h
  case refine_4 => intro m e h; cases h
  · intro env maxA hosc rem
    induction rem with
    | zero => intro attempt hist st; rfl
    | succ rem ih =>
      intro attempt hist st
      obtain ⟨result, hp, hc, hex⟩ := hosc attempt
      simp only [stepLoop, hp, hc]
      obtain ⟨evs, hev⟩ := hex st
      rcases hea : execute_action env.locate (env.times attempt) st result
        with ⟨r, w, st'⟩
      rw [hea] at hev
      simp only at hev
      subst hev
      simp only [hea]
      exact ih (attempt + 1) (hist ++ [result]) st'
  · intro env maxI hosc rem
    induction rem with
    | zero => intro iteration hist st; rfl
    | succ rem ih =>
      intro iteration hist st
      obtain ⟨result, hp, hkey, hst⟩ := hosc iteration
      simp only [taskLoop, hp, hkey, hst]
      norm_num
      exact ih (iteration + 1) _ _

/-- C3 witness: `stepEnvC` at limit 2 exhausts with the dedicated error
naming the limit; `taskEnvB` at limit 1 times out with the generic,
literal-brace `ValueError`. -/
theorem C3_exhaustion_errors_witness :
    ((∀ k : Nat, ∃ result : Json,
        json_loads (clean_response (stepEnvC.responses k)) = some result ∧
        stepVerdictCheck result = .ok false ∧
        ∀ st' : List ℚ, ∃ evs,
          (execute_action stepEnvC.locate (stepEnvC.times k) st' result).1
            = .ok evs) ∧
     (stepLoop stepEnvC 2 2 0 [] []).1
       = .error (.maxAttemptsExceeded
           "Exceeded maximum number of attempts (2) without success or clear action")) ∧
    ((∀ k : Nat, ∃ result : Json,
        parse_response (taskEnvB.responses k) = .ok result ∧
        keyIn "status" result = .ok true ∧
        getItem result "status" = .ok (.str "next_step")) ∧
     (taskLoop taskEnvB 1 1 0 [] []).1
       = .error (.valueError
           "Task timed out after \x7bself.max_iterations\x7d iterations")) := by
  have hstep : ∀ k : Nat, ∃ result : Json,
      json_loads (clean_response (stepEnvC.responses k)) = some result ∧
      stepVerdictCheck result = .ok false ∧
      ∀ st' : List ℚ, ∃ evs,
        (execute_action stepEnvC.locate (stepEnvC.times k) st' result).1
          = .ok evs :=
    fun k => ⟨actionA, by rfl, by rfl,
      fun st' => ⟨[ActEvent.vscroll 5], by rfl⟩⟩
  have htask : ∀ k : Nat, ∃ result : Json,
      parse_response (taskEnvB.responses k) = .ok result ∧
      keyIn "status" result = .ok true ∧
      getItem result "status" = .ok (.str "next_step") :=
    fun k => ⟨.obj [("status", .str "next_step"),
                    ("description", .str "do it"),
                    ("expected_outcome", .str "done")],
      by rfl, by rfl, by rfl⟩
  exact ⟨⟨hstep, by
      have := C3_exhaustion_errors.1 stepEnvC 2 hstep 2 0 [] []
      simpa using this⟩,
    ⟨htask, C3_exhaustion_errors.2.1 taskEnvB 1 htask 1 0 [] []⟩⟩

/-! ## Step-failure isolation (C2) -/

/-- A decoded step verdict reporting a problem. -/
def isProblemVerdict (j : Json) : Bool :=
  match j with
  | .obj kvs =>
    (match pyGet kvs "result" with
     | some (.str s) => s == "problem"
     | _ => false)
  | _ => false

/-- A step run that did not succeed: a problem verdict, attempt exhaustion,
a malformed-response error, or an uncaught execution error. -/
def stepFailed : Except StepError Json → Bool
  | .error _ => true
  | .ok v => isProblemVerdict v

theorem isProblemVerdict_elim {v : Json} (h : isProblemVerdict v = true) :
    ∃ kvs, v = .obj kvs ∧ pyGet kvs "result" = some (.str "problem")
      ∧ kvs.any (fun p => p.1 = "result") = true := by
  cases v with
  | obj kvs =>
    refine ⟨kvs, rfl, ?_⟩
    cases hp : pyGet kvs "result" with
    | none => simp [isProblemVerdict, hp] at h
    | some w =>
      have hany : kvs.any (fun p => p.1 = "result") = true := by
        cases hc : kvs.any (fun p => p.1 = "result") with
        | false => rw [pyGet_eq_none_iff.mpr hc] at hp; cases hp
        | true => rfl
      cases w with
      | str s =>
        simp only [isProblemVerdict, hp] at h
        have hs : s = "problem" := by simpa using h
        subst hs
        exact ⟨rfl, hany⟩
      | null => simp [isProblemVerdict, hp] at h
      | bool b => simp [isProblemVerdict, hp] at h
      | num n => simp [isProblemVerdict, hp] at h
      | arr xs => simp [isProblemVerdict, hp] at h
      | obj o => simp [isProblemVerdict, hp] at h
  | null => simp [isProblemVerdict] at h
  | bool b => simp [isProblemVerdict] at h
  | num n => simp [isProblemVerdict] at h
  | str s => simp [isProblemVerdict] at h
  | arr xs => simp [isProblemVerdict] at h

/-- A failed step run always yields a `failure` or `error` status record. -/
theorem execute_step_status_failed (senv : StepEnv) (st : List ℚ)
    (h : stepFailed (StepHandler_execute_task senv 10 st).1 = true) :
    (execute_step senv st).1.status = "failure" ∨
    (execute_step senv st).1.status = "error" := by
  unfold execute_step
  cases hout : (StepHandler_execute_task senv 10 st).1 with
  | error e => simp [hout]
  | ok v =>
    rw [hout] at h
    simp only [stepFailed] at h
    obtain ⟨kvs, rfl, hpg, hany⟩ := isProblemVerdict_elim h
    simp only [hout, keyIn, getItem, hany, hpg, stepRecordOf]
    left
    rw [if_neg (by decide)]

/-- C2: a TaskController iteration whose spawned StepController run fails
(problem verdict, attempt exhaustion, or any error) does not raise out of
`execute_task`: the iteration equals the continuation of the outer loop on
the next iteration, with the failed step appended to the StepRecord history
carrying a `failure` or `error` status. -/
theorem C2_step_failure_does_not_propagate
    (env : TaskEnv) (maxI rem iteration : Nat) (hist : List (Json × Json))
    (st : List ℚ) (result : Json)
    (hp : parse_response (env.responses iteration) = .ok result)
    (hkey : keyIn "status" result = .ok true)
    (hst : getItem result "status" = .ok (.str "next_step"))
    (hfail : stepFailed
      (StepHandler_execute_task (env.stepEnvs iteration) 10 st).1 = true) :
    ((execute_step (env.stepEnvs iteration) st).1.status = "failure" ∨
     (execute_step (env.stepEnvs iteration) st).1.status = "error") ∧
    taskLoop env maxI (rem + 1) iteration hist st
      = taskLoop env maxI rem (iteration + 1)
          (hist ++ [(taskDesc result,
                     (execute_step (env.stepEnvs iteration) st).1.message)])
          (execute_step (env.stepEnvs iteration) st).2 := by
  refine ⟨execute_step_status_failed _ _ hfail, ?_⟩
  simp only [taskLoop, hp, hkey, hst]
  rw [if_neg (by decide), if_neg (by decide), if_pos (by decide)]

/-- C2 witness: `taskEnvB`'s first iteration spawns a step that ends in a
problem verdict; the iteration continues the loop with the failed step
recorded. -/
theorem C2_step_failure_does_not_propagate_witness :
    (parse_response (taskEnvB.responses 0)
        = .ok (.obj [("status", .str "next_step"),
                     ("description", .str "do it"),
                     ("expected_outcome", .str "done")]) ∧
     stepFailed (StepHandler_execute_task (taskEnvB.stepEnvs 0) 10 []).1
        = true) ∧
    (((execute_step (taskEnvB.stepEnvs 0) []).1.status = "failure" ∨
      (execute_step (taskEnvB.stepEnvs 0) []).1.status = "error") ∧
     taskLoop taskEnvB 1 1 0 [] []
       = taskLoop taskEnvB 1 0 1
           ([] ++ [(taskDesc (.obj [("status", .str "next_step"),
                                    ("description", .str "do it"),
                                    ("expected_outcome", .str "done")]),
                    (execute_step (taskEnvB.stepEnvs 0) []).1.message)])
           (execute_step (taskEnvB.stepEnvs 0) []).2) :=
  ⟨⟨by rfl, by rfl⟩,
   C2_step_failure_does_not_propagate taskEnvB 1 0 0 [] []
     (.obj [("status", .str "next_step"),
            ("description", .str "do it"),
            ("expected_outcome", .str "done")])
     (by rfl) (by rfl) (by rfl) (by rfl)⟩

/-! ## Fence stripping and malformed responses (C8) -/

/-- `removeFences` leaves a backtick-free list unchanged, distributing over
an append whose left part is backtick-free. -/
theorem removeFences_append_no_tick (xs : List Char)
    (hx : ∀ c ∈ xs, c ≠ '`') :
    ∀ ys, removeFences (xs ++ ys) = xs ++ removeFences ys := by
  induction xs with
  | nil => intro ys; rfl
  | cons c t ih =>
    intro ys
    have hc : c ≠ '`' := hx c (by simp)
    have ht : ∀ a ∈ t, a ≠ '`' := fun a ha => hx a (by simp [ha])
    have htt : ∀ a ∈ t, a ≠ '`' := ht
    rw [List.cons_append]
    rw [removeFences.eq_3 c (t ++ ys)
      (fun _ h _ => hc h) (fun _ h _ => hc h)]
    rw [ih ht]
    rfl

theorem removeFences_no_tick {xs : List Char} (hx : ∀ c ∈ xs, c ≠ '`') :
    removeFences xs = xs := by
  have h := removeFences_append_no_tick xs hx []
  rw [List.append_nil] at h
  rw [h, show removeFences ([] : List Char) = [] from rfl, List.append_nil]

/-- First index of a predicate across an append whose left part avoids it. -/
theorem findIdx?_append_of_none {p : Char → Bool} (pre : List Char)
    (h : ∀ c ∈ pre, p c = false) (rest : List Char) :
    (pre ++ rest).findIdx? p = (rest.findIdx? p).map (· + pre.length) := by
  induction pre with
  | nil => simp
  | cons c t ih =>
    have hc : p c = false := h c (by simp)
    have ht : ∀ a ∈ t, p a = false := fun a ha => h a (by simp [ha])
    rw [List.cons_append]
    rw [show ((c :: (t ++ rest)).findIdx? p)
        = if p c then some 0 else ((t ++ rest).findIdx? p).map (· + 1) from
      by simp [List.findIdx?_cons]]
    rw [if_neg (by simp [hc]), ih ht]
    cases rest.findIdx? p with
    | none => simp
    | some a => simp; omega

/-- Slicing from the first `{` to the last `}` of a response of shape
`pre ++ "{…}" ++ post`, the surroundings brace-free, recovers the object
text exactly. -/
theorem extractJson_sandwich (pre mid post : List Char)
    (hpre : '\x7b' ∉ pre) (hpost : '\x7d' ∉ post) :
    extractJson (pre ++ '\x7b' :: (mid ++ '\x7d' :: post))
      = '\x7b' :: (mid ++ ['\x7d']) := by
  have hfst : (pre ++ '\x7b' :: (mid ++ '\x7d' :: post)).findIdx?
      (· = '\x7b') = some pre.length := by
    rw [findIdx?_append_of_none pre
      (fun c hc => by
        simp only [decide_eq_false_iff_not]
        intro h; exact hpre (h ▸ hc)) _]
    rw [List.findIdx?_cons]
    simp
  have hrev : (pre ++ '\x7b' :: (mid ++ '\x7d' :: post)).reverse
      = post.reverse ++ '\x7d' :: (mid.reverse ++ '\x7b' :: pre.reverse) := by
    simp
  have hsnd : (pre ++ '\x7b' :: (mid ++ '\x7d' :: post)).reverse.findIdx?
      (· = '\x7d') = some post.length := by
    rw [hrev]
    rw [findIdx?_append_of_none post.reverse
      (fun c hc => by
        simp only [decide_eq_false_iff_not]
        intro h; exact hpost (h ▸ List.mem_reverse.mp hc)) _]
    rw [List.findIdx?_cons]
    simp
  unfold extractJson
  rw [hfst, hsnd]
  dsimp only
  have he : (pre ++ '\x7b' :: (mid ++ '\x7d' :: post)).length - 1
      - post.length + 1 = pre.length + (mid.length + 2) := by
    simp
    omega
  rw [he]
  rw [List.take_append (mid.length + 2)]
  rw [show ('\x7b' :: (mid ++ '\x7d' :: post)).take (mid.length + 2)
      = '\x7b' :: (mid ++ ['\x7d']) from by
    rw [show mid.length + 2 = mid.length + 1 + 1 from by omega]
    rw [List.take_succ_cons]
    rw [List.take_append 1]
    simp]
  exact List.drop_left pre _

/-- `parse_response` depends on its input only through `clean_response`. -/
theorem parse_response_congr {a b : String}
    (h : clean_response a = clean_response b) :
    parse_response a = parse_response b := by
  unfold parse_response
  rw [h]

theorem string_mk_toList (s : String) : (⟨s.toList⟩ : String) = s := rfl

/-- Cleaning a well-shaped object text, bare or wrapped in a ```` ```json ````
fence, recovers the object text itself. -/
theorem clean_response_of_shape (s : String) (mid : List Char)
    (hs : s.toList = '\x7b' :: (mid ++ ['\x7d']))
    (ht : ∀ c ∈ s.toList, c ≠ '`') :
    clean_response ("```json\n" ++ s ++ "\n```") = s ∧
    clean_response s = s := by
  constructor
  · unfold clean_response
    have hfl : ("```json\n" ++ s ++ "\n```").toList
        = '`' :: '`' :: '`' :: 'j' :: 's' :: 'o' :: 'n' :: '\n'
          :: (s.toList ++ ['\n', '`', '`', '`']) := rfl
    rw [hfl]
    have h1 : removeFences
        ('`' :: '`' :: '`' :: 'j' :: 's' :: 'o' :: 'n' :: '\n'
          :: (s.toList ++ ['\n', '`', '`', '`']))
        = removeFences ('\n' :: (s.toList ++ ['\n', '`', '`', '`'])) := rfl
    rw [h1]
    rw [show ('\n' :: (s.toList ++ ['\n', '`', '`', '`']))
        = ['\n'] ++ (s.toList ++ ['\n', '`', '`', '`']) from rfl]
    rw [removeFences_append_no_tick ['\n'] (by simp) _]
    rw [removeFences_append_no_tick s.toList ht _]
    rw [show removeFences ['\n', '`', '`', '`'] = ['\n'] from rfl]
    rw [hs]
    rw [show ['\n'] ++ ('\x7b' :: (mid ++ ['\x7d']) ++ ['\n'])
        = ['\n'] ++ '\x7b' :: (mid ++ '\x7d' :: ['\n']) from by simp]
    rw [extractJson_sandwich ['\n'] mid ['\n'] (by simp) (by simp)]
    rw [← hs]
    exact string_mk_toList s
  · unfold clean_response
    rw [removeFences_no_tick ht, hs]
    have := extractJson_sandwich [] mid [] (by simp) (by simp)
    simp only [List.nil_append] at this
    rw [this, ← hs]
    exact string_mk_toList s

/-- Fence stripping only deletes characters. -/
theorem mem_removeFences {x : Char} : ∀ {cs : List Char},
    x ∈ removeFences cs → x ∈ cs := by
  intro cs
  induction cs using removeFences.induct with
  | case1 rest ih =>
    intro hx
    rw [removeFences.eq_1] at hx
    simp [ih hx]
  | case2 rest hno ih =>
    intro hx
    rw [removeFences.eq_2 rest hno] at hx
    simp [ih hx]
  | case3 c rest h1 h2 ih =>
    intro hx
    rw [removeFences.eq_3 c rest h1 h2] at hx
    rcases List.mem_cons.mp hx with h | h
    · simp [h]
    · simp [ih h]
  | case4 =>
    intro hx
    rw [show removeFences ([] : List Char) = [] from rfl] at hx
    cases hx

/-- A response without `{` after fence stripping keeps its fence-stripped
text unchanged through `clean_response`. -/
theorem clean_response_no_brace {s : String} (h : '\x7b' ∉ s.toList) :
    clean_response s = ⟨removeFences s.toList⟩ := by
  unfold clean_response extractJson
  have hnone : (removeFences s.toList).findIdx? (· = '\x7b') = none := by
    rw [List.findIdx?_eq_none_iff]
    intro c hc
    simp only [decide_eq_false_iff_not]
    intro he
    exact h (he ▸ mem_removeFences hc)
  rw [hnone]

/-- C8 (amended): a code-fenced JSON object cleans (hence parses) exactly
as the bare object does; and a response without a `{`/`}` pair whose
fence-stripped text fails to decode as JSON raises the malformed-response
`ValueError` rather than being coerced to any default verdict. -/
theorem C8_fence_stripping_and_malformed_responses :
    (∀ (s : String) (mid : List Char),
      s.toList = '\x7b' :: (mid ++ ['\x7d']) →
      (∀ c ∈ s.toList, c ≠ '`') →
      clean_response ("```json\n" ++ s ++ "\n```") = clean_response s ∧
      parse_response ("```json\n" ++ s ++ "\n```") = parse_response s) ∧
    (∀ s : String, '\x7b' ∉ s.toList →
      json_loads (clean_response s) = none →
      parse_response s
        = .error (.valueError
            s!"Error parsing Gemini response: {clean_response s}")) := by
  constructor
  · intro s mid hs ht
    obtain ⟨h1, h2⟩ := clean_response_of_shape s mid hs ht
    have hcc : clean_response ("```json\n" ++ s ++ "\n```")
        = clean_response s := by rw [h1, h2]
    exact ⟨hcc, parse_response_congr hcc⟩
  · intro s _ hj
    unfold parse_response
    dsimp only
    rw [hj]

/-- C8 counterexample: the brace-free response `"42"` is valid JSON, so
`parse_response` succeeds with the number 42 instead of raising a
malformed-response error, refuting the claim for such inputs. -/
theorem C8_braceless_valid_json_parses :
    ('\x7b' ∉ "42".toList ∧ '\x7d' ∉ "42".toList) ∧
    parse_response "42" = .ok (.num 42) :=
  ⟨by decide, by rfl⟩

/-- C8 witness: a concrete fenced object parses as its bare form does, and
the brace-free non-JSON response `"plain text"` raises the malformed
`ValueError`. -/
theorem C8_fence_stripping_and_malformed_responses_witness :
    (("\x7b\"status\": \"ok\"\x7d" : String).toList
        = '\x7b' :: ("\"status\": \"ok\"".toList ++ ['\x7d']) ∧
     (clean_response ("```json\n" ++ "\x7b\"status\": \"ok\"\x7d" ++ "\n```")
        = clean_response "\x7b\"status\": \"ok\"\x7d" ∧
      parse_response ("```json\n" ++ "\x7b\"status\": \"ok\"\x7d" ++ "\n```")
        = parse_response "\x7b\"status\": \"ok\"\x7d")) ∧
    ('\x7b' ∉ ("plain text" : String).toList ∧
     json_loads (clean_response "plain text") = none ∧
     parse_response "plain text"
       = .error (.valueError
           ("Error parsing Gemini response: " ++ clean_response "plain text"))) :=
  ⟨⟨by rfl,
    C8_fence_stripping_and_malformed_responses.1
      "\x7b\"status\": \"ok\"\x7d" ("\"status\": \"ok\"".toList)
      (by rfl) (by decide)⟩,
   ⟨by decide, by rfl,
    C8_fence_stripping_and_malformed_responses.2 "plain text"
      (by decide) (by rfl)⟩⟩

end TodoAI
